import Mathlib

/-!
# Verification of the platformer simulation core

Shallow embedding of the game's simulation core (`src/game/engine.js`,
`src/components/Game.js`, `src/hooks/useGameLoop.js`) over exact rational
arithmetic.  JavaScript numbers are modelled by `ℚ`; `Math.floor` by
`Rat.floor`; the host's `Math.pow` (used only for the frame-rate-independent
friction factor) is an external transcendental function and is therefore
passed to the step function as an explicit parameter `fpow : ℚ → ℚ → ℚ`.
All definitions mirror the source line by line; control-flow loops whose body
is independent of the loop variable (as in `tryPlayerMoveX`) are folded into
the equivalent conditional, with a comment at the site.
-/

/-! ## engine.js: constants, level data, tile predicates -/

def GAME_WIDTH : ℚ := 384
def GAME_HEIGHT : ℚ := 216
def TILE_SIZE : ℚ := 24

/-- `clamp(val, min, max) = Math.max(min, Math.min(max, val))` (engine.js). -/
def clamp (v lo hi : ℚ) : ℚ := max lo (min hi v)

/-- A level: named grid of tile codes with declared width/height (engine.js).
Tile codes: 0 air, 1 ground, 2 platform, 3 coin, 4 enemy spawn, 5 flag. -/
structure Level where
  name : String
  width : ℤ
  height : ℤ
  tiles : List (List ℤ)

/-- `level1` from engine.js, verbatim. -/
def level1 : Level :=
  { name := "Level 1: Go Go Mario!"
    width := 32
    height := 10
    tiles :=
      [ [0,0,0,0,0,0,0,0,0,0,0,0,0,0,0,0,0,0,0,0,0,0,0,0,0,0,0,0,0,0,0,0]
      , [0,0,0,0,0,0,0,0,0,0,0,0,0,2,0,0,0,0,0,0,0,2,0,0,0,0,0,0,0,0,0,0]
      , [0,0,0,0,0,0,0,0,0,0,3,0,0,0,0,0,0,0,0,4,0,0,3,0,0,0,2,0,0,0,0,0]
      , [0,0,0,2,0,0,0,0,0,2,0,0,0,0,0,0,0,0,0,0,0,2,0,0,0,3,0,0,0,0,0,0]
      , [0,0,0,0,0,0,0,2,0,0,0,3,0,0,0,0,0,0,2,0,0,0,0,0,0,0,4,0,0,0,0,0]
      , [0,0,0,0,0,0,3,0,0,4,0,0,2,0,0,0,0,2,0,0,0,0,0,0,0,0,0,0,3,0,0,0]
      , [0,0,0,0,0,2,0,0,0,0,0,0,0,3,0,0,2,0,0,0,0,0,0,2,0,0,0,0,0,0,0,0]
      , [0,0,0,0,2,0,0,0,0,4,0,3,0,0,0,4,0,0,0,3,0,0,0,0,0,0,0,0,0,2,0,5]
      , [1,1,1,1,1,1,1,1,1,1,1,1,1,1,1,1,1,1,1,1,1,1,1,1,1,1,1,1,1,1,1,1]
      , [1,1,1,1,1,1,1,1,1,1,1,1,1,1,1,1,1,1,1,1,1,1,1,1,1,1,1,1,1,1,1,1] ] }

/-- "Tiles that block player horizontal/vertical movement" (engine.js):
`isSolid(t) { return t === 1 || t === 2 || t === 5; }` -/
def isSolid (t : ℤ) : Bool := t == 1 || t == 2 || t == 5

def isPlatform (t : ℤ) : Bool := t == 2

def isGround (t : ℤ) : Bool := t == 1

def isCoin (t : ℤ) : Bool := t == 3

def isEnemy (t : ℤ) : Bool := t == 4

def isFlag (t : ℤ) : Bool := t == 5

/-- Raw array access `level.tiles[ty][tx]` as JavaScript performs it in
`tryPlayerMoveY` (`level.tiles[ty]?.[tx]`): any out-of-range index yields
`undefined`, on which every tile predicate is false, exactly as on code 0. -/
def tileRaw (lv : Level) (ty tx : ℤ) : ℤ :=
  if ty < 0 ∨ tx < 0 then 0
  else (lv.tiles.getD ty.toNat []).getD tx.toNat 0

/-- AABB, as produced by `getPlayerRect` / `getEntityRect` (Game.js). -/
structure Rect where
  x : ℚ
  y : ℚ
  w : ℚ
  h : ℚ

/-- `rectsCollide` (engine.js): strict AABB overlap on both axes. -/
def rectsCollide (a b : Rect) : Bool :=
  decide (a.x < b.x + b.w) && decide (a.x + a.w > b.x) &&
  decide (a.y < b.y + b.h) && decide (a.y + a.h > b.y)

/-- `PHYS` constants (engine.js). -/
def PHYS.gravity : ℚ := 900
def PHYS.moveAccel : ℚ := 800
def PHYS.maxDX : ℚ := 180
def PHYS.maxDY : ℚ := 450
def PHYS.jumpVel : ℚ := 340
def PHYS.frictionGround : ℚ := 78/100
def PHYS.frictionAir : ℚ := 93/100
def PHYS.coyoteMs : ℚ := 100
def PHYS.invulnMs : ℚ := 1100
def PHYS.enemyPatrolSpeed : ℚ := 60

/-- `tile2px` (engine.js). -/
def tile2px (tx ty : ℤ) : ℚ × ℚ := ((tx : ℚ) * TILE_SIZE, (ty : ℚ) * TILE_SIZE)

/-- `px2tile` (engine.js): `Math.floor` coordinate division. -/
def px2tile (x y : ℚ) : ℤ × ℤ := (Rat.floor (x / TILE_SIZE), Rat.floor (y / TILE_SIZE))

/-- Result of `findSpawns` (engine.js). -/
structure SpawnInfo where
  player : ℤ × ℤ
  enemies : List (ℤ × ℤ)

/-- `findSpawns` (engine.js): the player spawn is the hardcoded literal
`{ x: 1, y: 5 }` — no tile is ever searched for it; enemies are collected in
row-major order from tiles of code 4.  The outer loop runs over
`level.tiles.length` rows and the inner one over `level.width` columns,
exactly as the source does. -/
def findSpawns (lv : Level) : SpawnInfo :=
  { player := (1, 5)
    enemies :=
      (List.range lv.tiles.length).flatMap fun y =>
        (List.range lv.width.toNat).filterMap fun x =>
          if isEnemy (tileRaw lv (y : ℤ) (x : ℤ)) then some ((x : ℤ), (y : ℤ)) else none }

/-- `findCoins` (engine.js): coin-marker tiles in row-major order. -/
def findCoins (lv : Level) : List (ℤ × ℤ) :=
  (List.range lv.tiles.length).flatMap fun y =>
    (List.range lv.width.toNat).filterMap fun x =>
      if isCoin (tileRaw lv (y : ℤ) (x : ℤ)) then some ((x : ℤ), (y : ℤ)) else none

/-! ## Game.js: data model -/

/-- The player record of `mkInitialGameState` (Game.js).  The source object
acquires a `lives` property only when a side hit writes it
(`movedY.lives = st.lives - 1`); before that the property is `undefined` and
the step's final `movedY.lives ?? st.lives` falls back to the state's lives.
That optionality is modelled with `Option ℚ`. -/
structure Player where
  x : ℚ
  y : ℚ
  dx : ℚ
  dy : ℚ
  w : ℚ
  h : ℚ
  dir : ℚ
  grounded : Bool
  jumping : Bool
  wantsJump : Bool
  coyote : ℚ
  invuln : ℚ
  animTimer : ℚ
  frame : ℤ
  dead : Bool
  respawnTimer : ℚ
  lives : Option ℚ

structure Enemy where
  x : ℚ
  y : ℚ
  dx : ℚ
  dy : ℚ
  w : ℚ
  h : ℚ
  dead : Bool
  patrolMin : ℚ
  patrolMax : ℚ

structure Coin where
  x : ℚ
  y : ℚ
  r : ℚ
  collected : Bool

structure Camera where
  x : ℚ
  y : ℚ

structure GameState where
  level : Level
  player : Player
  camera : Camera
  enemies : List Enemy
  coins : List Coin
  collectedCoins : List ℕ
  score : ℚ
  lives : ℚ
  win : Bool
  timer : ℚ
  started : Bool

/-- The pressed-key snapshot read by `stepGame` (Game.js):
`keys["ArrowLeft"] || keys["KeyA"]` etc. -/
structure Keys where
  arrowLeft : Bool
  keyA : Bool
  arrowRight : Bool
  keyD : Bool
  arrowUp : Bool
  space : Bool

def getPlayerRect (p : Player) : Rect := { x := p.x, y := p.y, w := p.w, h := p.h }

def getEntityRect (e : Enemy) : Rect := { x := e.x, y := e.y, w := e.w, h := e.h }

def initialLives : ℚ := 3

/-- `mkInitialGameState` (Game.js), parameterised by the level it reads
(the source closes over the constant `level1`; see `mkInitialGameState`). -/
def mkGameStateFor (lv : Level) : GameState :=
  let s := findSpawns lv
  { level := lv
    player :=
      { x := (tile2px s.player.1 s.player.2).1
        y := (tile2px s.player.1 s.player.2).2 - TILE_SIZE
        dx := 0, dy := 0, w := 18, h := 22, dir := 1
        grounded := false, jumping := false, wantsJump := false
        coyote := 0, invuln := 0, animTimer := 0, frame := 0
        dead := false, respawnTimer := 0, lives := none }
    camera := { x := 0, y := 0 }
    enemies := s.enemies.map fun xy =>
      { x := (tile2px xy.1 xy.2).1, y := (tile2px xy.1 xy.2).2
        dx := PHYS.enemyPatrolSpeed, dy := 0, w := 20, h := 18, dead := false
        patrolMin := (tile2px (xy.1 - 2) 0).1
        patrolMax := (tile2px (xy.1 + 2) 0).1 }
    coins := (findCoins lv).map fun xy =>
      { x := (tile2px xy.1 xy.2).1 + 6, y := (tile2px xy.1 xy.2).2 + 5
        r := 6, collected := false }
    collectedCoins := []
    score := 0
    lives := initialLives
    win := false
    timer := 0
    started := true }

/-- `mkInitialGameState()` as the source calls it: always on `level1`. -/
def mkInitialGameState : GameState := mkGameStateFor level1

/-! ## Game.js: physics / collision helpers -/

/-- `getTile` (Game.js): bounds-checked tile lookup, air (0) outside. -/
def getTile (lv : Level) (px py : ℚ) : ℤ :=
  let tx := (px2tile px py).1
  let ty := (px2tile px py).2
  if tx < 0 ∨ tx ≥ lv.width ∨ ty < 0 ∨ ty ≥ lv.height then 0
  else tileRaw lv ty tx

/-- The integer range `[lo, hi]` traversed by the `for (tx = lo; tx <= hi; ++tx)`
loops of `tryPlayerMoveY`; empty when `hi < lo`. -/
def intRange (lo hi : ℤ) : List ℤ :=
  (List.range (hi + 1 - lo).toNat).map fun i => lo + (i : ℤ)

/-- Whether any tile in columns `[txL, txR]` of row `ty` satisfies `pred`,
using the raw (`?.`-style) array access of `tryPlayerMoveY`. -/
def anyTile (lv : Level) (ty txL txR : ℤ) (pred : ℤ → Bool) : Bool :=
  (intRange txL txR).any fun tx => pred (tileRaw lv ty tx)

/-- `tryPlayerMoveX` (Game.js).  The source loops `ty` over `[tyTop, tyBot]`
but the body probes the single point `(np.x + leading edge, np.y + h/2)` and
breaks on the first solid hit, so the loop fires exactly once iff the range is
nonempty and that probe is solid. -/
def tryPlayerMoveX (lv : Level) (p : Player) (dt : ℚ) : Player :=
  let np := { p with x := p.x + p.dx * dt }
  let tx : ℤ :=
    if np.dx > 0 then Rat.floor ((np.x + np.w) / TILE_SIZE) else Rat.floor (np.x / TILE_SIZE)
  let tyTop : ℤ := Rat.floor (np.y / TILE_SIZE)
  let tyBot : ℤ := Rat.floor ((np.y + np.h - 1) / TILE_SIZE)
  let t := getTile lv (np.x + (if np.dx > 0 then np.w else 0)) (np.y + p.h / 2)
  if tyTop ≤ tyBot ∧ isSolid t then
    { np with
      x := if p.dx > 0 then (tx : ℚ) * TILE_SIZE - np.w else ((tx : ℚ) + 1) * TILE_SIZE
      dx := 0 }
  else np

/-- `tryPlayerMoveY` (Game.js).  Each downward loop iteration that hits
ground/platform writes the same snapped values (the row `tyBot` is fixed), so
the loop is the existence check `anyTile`; likewise for the upward probe. -/
def tryPlayerMoveY (lv : Level) (p : Player) (dt : ℚ) : Player :=
  let np := { p with y := p.y + p.dy * dt, grounded := false }
  if p.dy ≥ 0 then
    let txL : ℤ := Rat.floor (np.x / TILE_SIZE)
    let txR : ℤ := Rat.floor ((np.x + np.w - 1) / TILE_SIZE)
    let tyB : ℤ := Rat.floor ((np.y + np.h) / TILE_SIZE)
    if anyTile lv tyB txL txR (fun t => isGround t || isPlatform t) then
      { np with y := (tyB : ℚ) * TILE_SIZE - np.h, dy := 0, grounded := true,
                coyote := PHYS.coyoteMs }
    else np
  else
    let txL : ℤ := Rat.floor (np.x / TILE_SIZE)
    let txR : ℤ := Rat.floor ((np.x + np.w - 1) / TILE_SIZE)
    let tyT : ℤ := Rat.floor (np.y / TILE_SIZE)
    if anyTile lv tyT txL txR isSolid then
      { np with y := ((tyT : ℚ) + 1) * TILE_SIZE, dy := 0 }
    else np

/-- `circleBoxCollide` (Game.js): clamp the centre into the box and compare
squared distance against `r² + 0.5`. -/
def circleBoxCollide (cx cy cr : ℚ) (rect : Rect) : Bool :=
  let testX := clamp cx rect.x (rect.x + rect.w)
  let testY := clamp cy rect.y (rect.y + rect.h)
  let distX := cx - testX
  let distY := cy - testY
  decide (distX * distX + distY * distY < cr * cr + 1/2)


/-! ## Game.js: `stepGame`, split into its numbered sections -/

/-- Section 1 of `stepGame` (Game.js): player input & physics.  `fpow` stands
for the host's `Math.pow`, used for the frame-rate-independent friction
factor `Math.pow(friction, dt * 60)`. -/
def physPlayer (fpow : ℚ → ℚ → ℚ) (keys : Keys) (dt : ℚ) (p0 : Player) : Player :=
  let left := keys.arrowLeft || keys.keyA
  let right := keys.arrowRight || keys.keyD
  let up := keys.arrowUp || keys.space
  let wantsJump := up
  -- the source mutates `p` field by field; each assignment is bound here as a
  -- scalar so that no intermediate record is duplicated.  Only dx, dy, dir,
  -- grounded, coyote and jumping are written by this section; the friction,
  -- clamp, gravity and coyote updates read the same untouched grounded/coyote
  -- values the source's sequential writes would.
  let dx1 := if left then p0.dx - PHYS.moveAccel * dt
             else if right then p0.dx + PHYS.moveAccel * dt else p0.dx
  let dir1 : ℚ := if left then -1 else if right then 1 else p0.dir
  let dx2 := dx1 * (if p0.grounded then fpow PHYS.frictionGround (dt * 60)
                    else fpow PHYS.frictionAir (dt * 60))
  let dx3 := clamp dx2 (-PHYS.maxDX) PHYS.maxDX
  let dy1 := if p0.grounded then p0.dy else p0.dy + PHYS.gravity * dt
  let dy2 := clamp dy1 (-PHYS.maxDY) PHYS.maxDY
  let coy1 := if p0.grounded || decide (p0.coyote > 0) then PHYS.coyoteMs
              else max (p0.coyote - dt * 1000) 0
  -- the jump test reads the just-updated coyote value (coy1), as the source does
  let jumpNow := wantsJump && !p0.jumping && (p0.grounded || decide (coy1 > 0))
  let dy3 := if jumpNow then -PHYS.jumpVel else dy2
  let grounded1 := if jumpNow then false else p0.grounded
  let coy2 := if jumpNow then 0 else coy1
  let jumping1 := if !wantsJump then false else (if jumpNow then true else p0.jumping)
  { p0 with dx := dx3, dy := dy3, dir := dir1, grounded := grounded1,
            coyote := coy2, jumping := jumping1 }

/-- The animation update between sections 1 and 2 of `stepGame` (Game.js).
JavaScript's `%` is truncated remainder, i.e. `Int.tmod`. -/
def animStep (dt : ℚ) (p : Player) : Player :=
  let p1 := { p with animTimer := p.animTimer + dt }
  if |p1.dx| > 12 then { p1 with frame := (Rat.floor (p1.animTimer * 8)).tmod 2 }
  else { p1 with frame := 0 }

/-- The moved player fed to the collision sections: sections 1 + X/Y sweeps +
animation update, in source order. -/
def movedPlayer (fpow : ℚ → ℚ → ℚ) (lv : Level) (keys : Keys) (dt : ℚ) (p : Player) : Player :=
  animStep dt (tryPlayerMoveY lv (tryPlayerMoveX lv (physPlayer fpow keys dt p) dt) dt)

/-- Section 2 of `stepGame` (Game.js): per-enemy patrol AI. -/
def stepEnemy (lv : Level) (dt : ℚ) (e : Enemy) : Enemy :=
  if e.dead then e
  else
    let dx1 := clamp e.dx (-PHYS.enemyPatrolSpeed) PHYS.enemyPatrolSpeed
    let x1 := e.x + dx1 * dt
    let xd :=
      if x1 < e.patrolMin then (e.patrolMin, |dx1|)
      else if x1 > e.patrolMax then (e.patrolMax, -|dx1|)
      else (x1, dx1)
    let below := getTile lv (xd.1 + e.w / 2) (e.y + e.h + 1)
    let dx3 := if !isGround below then -xd.2 else xd.2
    { e with x := xd.1, dx := dx3 }

/-- `movedY.dy > 30 && movedY.y + movedY.h - 6 < e.y + 8 && movedY.y < e.y`:
the stomp classification of section 3 (Game.js). -/
def stompCheck (p : Player) (e : Enemy) : Bool :=
  decide (p.dy > 30) && decide (p.y + p.h - 6 < e.y + 8) && decide (p.y < e.y)

/-- Outcome of section 3 of `stepGame` (Game.js): the mutated player, the
enemy list, the number of stomped enemies (`stompedEnemies.length`), and the
`playerDied` flag set by the side-hit branch. -/
structure EnemyOut where
  player : Player
  enemies : List Enemy
  stomps : ℕ
  playerDied : Bool

/-- Section 3 of `stepGame` (Game.js): the player-vs-enemies loop.  A stomp
tombstones the enemy, bounces the player (`dy = -jumpVel * 0.7`), clears
grounded, and the loop continues; a side hit (`invuln <= 0`) writes
`lives = st.lives - 1`, marks the player dead, arms the respawn timer and
invulnerability, and `break`s, returning the remaining enemies unchanged. -/
def enemyCollide (stLives : ℚ) : Player → List Enemy → EnemyOut
  | p, [] => ⟨p, [], 0, false⟩
  | p, e :: rest =>
    if e.dead then
      let o := enemyCollide stLives p rest
      ⟨o.player, e :: o.enemies, o.stomps, o.playerDied⟩
    else if rectsCollide (getPlayerRect p) (getEntityRect e) then
      if stompCheck p e then
        let p2 := { p with dy := -PHYS.jumpVel * (7/10), grounded := false }
        let o := enemyCollide stLives p2 rest
        ⟨o.player, { e with dead := true } :: o.enemies, o.stomps + 1, o.playerDied⟩
      else if p.invuln ≤ 0 then
        ⟨{ p with lives := some (stLives - 1), dead := true,
                  respawnTimer := 9/10, invuln := PHYS.invulnMs },
          e :: rest, 0, true⟩
      else
        let o := enemyCollide stLives p rest
        ⟨o.player, e :: o.enemies, o.stomps, o.playerDied⟩
    else
      let o := enemyCollide stLives p rest
      ⟨o.player, e :: o.enemies, o.stomps, o.playerDied⟩

/-- `!c.collected && circleBoxCollide(c.x, c.y, c.r, getPlayerRect(movedY))`:
the pickup test of section 4 (Game.js). -/
def coinPick (p : Player) (c : Coin) : Bool :=
  !c.collected && circleBoxCollide c.x c.y c.r (getPlayerRect p)

/-- Outcome of section 4 of `stepGame` (Game.js): the updated coin list, the
indices pushed onto `collectedCoins` this tick (in increasing order, as the
source loop runs forward), and the accumulated `scoreInc` from coins. -/
structure CoinOut where
  coins : List Coin
  idxs : List ℕ
  scoreInc : ℚ

/-- Section 4 of `stepGame` (Game.js): the player-vs-coins loop, with `k` the
index of the first coin of the remaining list. -/
def coinPass (p : Player) : List Coin → ℕ → CoinOut
  | [], _ => ⟨[], [], 0⟩
  | c :: rest, k =>
    let o := coinPass p rest (k + 1)
    if coinPick p c then ⟨{ c with collected := true } :: o.coins, k :: o.idxs, o.scoreInc + 10⟩
    else ⟨c :: o.coins, o.idxs, o.scoreInc⟩

/-- Section 6 of `stepGame` (Game.js): death/respawn and the invulnerability
countdown.  The respawn teleports to the spawn returned by `findSpawns`
(`y` shifted up one tile) and resets exactly position, velocity, direction,
grounded, dead and invuln. -/
def deathRespawn (lv : Level) (dt : ℚ) (p : Player) : Player :=
  if p.dead then
    let p1 := { p with invuln := PHYS.invulnMs, respawnTimer := p.respawnTimer - dt }
    if p1.respawnTimer ≤ 0 then
      let s := (findSpawns lv).player
      let xy := tile2px s.1 s.2
      { p1 with x := xy.1, y := xy.2 - TILE_SIZE, dx := 0, dy := 0, dir := 1,
                grounded := false, dead := false, invuln := PHYS.invulnMs }
    else p1
  else if p.invuln > 0 then
    let v := p.invuln - dt * 1000
    { p with invuln := if v < 0 then 0 else v }
  else p

/-- The world clamp after section 6 (Game.js). -/
def clampWorld (lv : Level) (p : Player) : Player :=
  { p with
    x := clamp p.x 0 ((lv.width : ℚ) * TILE_SIZE - p.w)
    y := clamp p.y 0 (((lv.height : ℚ) - 1) * TILE_SIZE - p.h) }

/-- Section 7 of `stepGame` (Game.js): camera follows the player. -/
def cameraFor (lv : Level) (p : Player) : Camera :=
  { x := clamp (p.x + p.w / 2 - GAME_WIDTH / 2) 0 ((lv.width : ℚ) * TILE_SIZE - GAME_WIDTH)
    y := 0 }

/-- Sections 1–3 composed on the previous state.  The source first builds
`st = {...prev, timer: prev.timer + dt}`; the phases read only fields that
the timer update leaves untouched, so they are applied to `prev` directly. -/
def enemyPhase (fpow : ℚ → ℚ → ℚ) (prev : GameState) (keys : Keys) (dt : ℚ) : EnemyOut :=
  enemyCollide prev.lives (movedPlayer fpow prev.level keys dt prev.player)
    (prev.enemies.map (stepEnemy prev.level dt))

/-- Section 4 applied to the section-3 player. -/
def coinPhase (fpow : ℚ → ℚ → ℚ) (prev : GameState) (keys : Keys) (dt : ℚ) : CoinOut :=
  coinPass (enemyPhase fpow prev keys dt).player prev.coins 0

/-- Section 5 of `stepGame` (Game.js): flag test at the player's centre. -/
def flagHit (fpow : ℚ → ℚ → ℚ) (prev : GameState) (keys : Keys) (dt : ℚ) : Bool :=
  let P := (enemyPhase fpow prev keys dt).player
  isFlag (getTile prev.level (P.x + P.w / 2) (P.y + P.h / 2))

/-- `stepGame(prev, keys, dt)` (Game.js): the whole per-tick transform.
`win` is recomputed from the flag test each tick; `lives` is
`movedY.lives ?? st.lives`; `score` adds the coin/flag `scoreInc` and
`stompedEnemies.length * 50`. -/
def stepGame (fpow : ℚ → ℚ → ℚ) (prev : GameState) (keys : Keys) (dt : ℚ) : GameState :=
  let eo := enemyPhase fpow prev keys dt
  let co := coinPhase fpow prev keys dt
  let win := flagHit fpow prev keys dt
  let scoreInc := co.scoreInc + (if win then (100 : ℚ) else 0)
  let pd := clampWorld prev.level (deathRespawn prev.level dt eo.player)
  { prev with
    timer := prev.timer + dt
    player := pd
    enemies := eo.enemies
    coins := co.coins
    collectedCoins := prev.collectedCoins ++ co.idxs
    score := prev.score + scoreInc + (eo.stomps : ℚ) * 50
    lives := pd.lives.getD prev.lives
    camera := cameraFor prev.level pd
    win := win }

/-! ## useGameLoop.js: the frame time delta -/

/-- `const dt = Math.min((now - prev) / 1000, 0.07)` (useGameLoop.js): the
only processing the elapsed time receives before `stepGame` sees it. -/
def computeDt (now prev : ℚ) : ℚ := min ((now - prev) / 1000) (7/100)

/-! ## Concrete instances used in counterexamples and witnesses -/

/-- A concrete stand-in for the host's `Math.pow` in closed evaluations.  The
states below either step with `dt = 0` — where JavaScript's
`Math.pow(f, 0)` is exactly `1` — or have zero horizontal velocity, so the
friction factor multiplies `0` and the choice is immaterial. -/
def fpow1 : ℚ → ℚ → ℚ := fun _ _ => 1

/-- No key pressed. -/
def keysNone : Keys := ⟨false, false, false, false, false, false⟩

/-- A mid-air player at (100, 100) over empty tiles of `level1`. -/
def basePlayer : Player :=
  { x := 100, y := 100, dx := 0, dy := 0, w := 18, h := 22, dir := 1
    grounded := false, jumping := false, wantsJump := false
    coyote := 0, invuln := 0, animTimer := 0, frame := 0
    dead := false, respawnTimer := 0, lives := none }

/-- A minimal running session on `level1`. -/
def baseState : GameState :=
  { level := level1, player := basePlayer, camera := { x := 0, y := 0 }
    enemies := [], coins := [], collectedCoins := []
    score := 0, lives := 3, win := false, timer := 0, started := true }

def coin0 : Coin := { x := 0, y := 0, r := 0, collected := false }

/-- The side-hit mutation of section 3 (Game.js): `lives = st.lives - 1`,
dead, respawn countdown 0.9 s, invulnerability armed. -/
def sideHitPlayer (l : ℚ) (p : Player) : Player :=
  { p with lives := some (l - 1), dead := true, respawnTimer := 9/10, invuln := PHYS.invulnMs }

/-- A player about to run rightward into the platform tile at tile (13, 1). -/
def c1px : Player := { basePlayer with x := 290, y := 20, dx := 180 }

/-- A player rising into the underside of the platform tile at tile (13, 1). -/
def c1py : Player := { basePlayer with x := 315, y := 50, dy := -100 }

/-- Live patrol enemy overlapping `basePlayer` from below (stompable). -/
def c2e0 : Enemy :=
  { x := 100, y := 110, dx := 60, dy := 0, w := 20, h := 18, dead := false
    patrolMin := 0, patrolMax := 200 }

/-- Live patrol enemy level with `basePlayer` (side hit, not stompable). -/
def c2e1 : Enemy := { c2e0 with y := 100 }

/-- Falling player over a stompable enemy followed by a side-hit enemy. -/
def c2state : GameState :=
  { baseState with player := { basePlayer with dy := 100 }, enemies := [c2e0, c2e1] }

/-- A session already at zero lives whose player takes a side hit. -/
def c3state : GameState :=
  { baseState with player := { basePlayer with dy := 100 }, enemies := [c2e1], lives := 0 }

/-- A session whose `win` flag is already set, the player still centred on
the flag tile (31, 7). -/
def c4state : GameState :=
  { baseState with player := { basePlayer with x := 740, y := 160 }, win := true, score := 500 }

/-- An uncollected coin at the centre of `basePlayer`. -/
def c8coin : Coin := { x := 109, y := 111, r := 6, collected := false }

/-- A dead player whose respawn completes this tick while overlapping an
uncollected coin. -/
def c8player : Player :=
  { basePlayer with grounded := true, dead := true, respawnTimer := 1/100, invuln := 1100 }

def c8state : GameState :=
  { baseState with player := c8player, coins := [c8coin], lives := 2 }

/-- The same respawn-completing session with no coin in reach. -/
def c8bstate : GameState := { baseState with player := c8player, lives := 2 }

/-- A second uncollected coin overlapping `basePlayer`. -/
def coinB : Coin := { x := 105, y := 105, r := 6, collected := false }

/-- An already-collected coin, its index 2 recorded in `collectedCoins`. -/
def coinC : Coin := { x := 0, y := 0, r := 6, collected := true }

/-- A session with two uncollected coins under the player and one coin
already collected. -/
def c9state : GameState :=
  { baseState with coins := [c8coin, coinB, coinC], collectedCoins := [2] }

/-- An airborne player with a partially decayed (still armed) coyote timer. -/
def c10state : GameState := { baseState with player := { basePlayer with coyote := 50 } }

/-- A malformed level: declared width 3, but the second row has length 2. -/
def badLevel : Level := { name := "bad", width := 3, height := 2, tiles := [[0,0,0],[1,1]] }

/-! ## Field-preservation lemmas for the step pipeline -/

theorem physPlayer_pres (fpow : ℚ → ℚ → ℚ) (keys : Keys) (dt : ℚ) (p : Player) :
    (physPlayer fpow keys dt p).x = p.x ∧ (physPlayer fpow keys dt p).y = p.y ∧
    (physPlayer fpow keys dt p).w = p.w ∧ (physPlayer fpow keys dt p).h = p.h ∧
    (physPlayer fpow keys dt p).invuln = p.invuln ∧
    (physPlayer fpow keys dt p).dead = p.dead ∧
    (physPlayer fpow keys dt p).respawnTimer = p.respawnTimer ∧
    (physPlayer fpow keys dt p).lives = p.lives := by
  exact ⟨rfl, rfl, rfl, rfl, rfl, rfl, rfl, rfl⟩

theorem tryPlayerMoveX_pres (lv : Level) (p : Player) (dt : ℚ) :
    (tryPlayerMoveX lv p dt).y = p.y ∧ (tryPlayerMoveX lv p dt).dy = p.dy ∧
    (tryPlayerMoveX lv p dt).w = p.w ∧ (tryPlayerMoveX lv p dt).h = p.h ∧
    (tryPlayerMoveX lv p dt).grounded = p.grounded ∧
    (tryPlayerMoveX lv p dt).jumping = p.jumping ∧
    (tryPlayerMoveX lv p dt).coyote = p.coyote ∧
    (tryPlayerMoveX lv p dt).invuln = p.invuln ∧
    (tryPlayerMoveX lv p dt).dead = p.dead ∧
    (tryPlayerMoveX lv p dt).respawnTimer = p.respawnTimer ∧
    (tryPlayerMoveX lv p dt).lives = p.lives := by
  simp only [tryPlayerMoveX]
  repeat' split
  all_goals exact ⟨rfl, rfl, rfl, rfl, rfl, rfl, rfl, rfl, rfl, rfl, rfl⟩

theorem tryPlayerMoveY_pres (lv : Level) (p : Player) (dt : ℚ) :
    (tryPlayerMoveY lv p dt).x = p.x ∧ (tryPlayerMoveY lv p dt).dx = p.dx ∧
    (tryPlayerMoveY lv p dt).w = p.w ∧ (tryPlayerMoveY lv p dt).h = p.h ∧
    (tryPlayerMoveY lv p dt).jumping = p.jumping ∧
    (tryPlayerMoveY lv p dt).invuln = p.invuln ∧
    (tryPlayerMoveY lv p dt).dead = p.dead ∧
    (tryPlayerMoveY lv p dt).respawnTimer = p.respawnTimer ∧
    (tryPlayerMoveY lv p dt).lives = p.lives := by
  simp only [tryPlayerMoveY]
  repeat' split
  all_goals exact ⟨rfl, rfl, rfl, rfl, rfl, rfl, rfl, rfl, rfl⟩

theorem animStep_pres (dt : ℚ) (p : Player) :
    (animStep dt p).x = p.x ∧ (animStep dt p).y = p.y ∧
    (animStep dt p).dx = p.dx ∧ (animStep dt p).dy = p.dy ∧
    (animStep dt p).w = p.w ∧ (animStep dt p).h = p.h ∧
    (animStep dt p).grounded = p.grounded ∧
    (animStep dt p).jumping = p.jumping ∧
    (animStep dt p).coyote = p.coyote ∧
    (animStep dt p).invuln = p.invuln ∧
    (animStep dt p).dead = p.dead ∧
    (animStep dt p).respawnTimer = p.respawnTimer ∧
    (animStep dt p).lives = p.lives := by
  simp only [animStep]
  repeat' split
  all_goals exact ⟨rfl, rfl, rfl, rfl, rfl, rfl, rfl, rfl, rfl, rfl, rfl, rfl, rfl⟩

/-- The player fields `movedPlayer` never touches. -/
theorem movedPlayer_pres (fpow : ℚ → ℚ → ℚ) (lv : Level) (keys : Keys) (dt : ℚ) (p : Player) :
    (movedPlayer fpow lv keys dt p).w = p.w ∧
    (movedPlayer fpow lv keys dt p).h = p.h ∧
    (movedPlayer fpow lv keys dt p).invuln = p.invuln ∧
    (movedPlayer fpow lv keys dt p).dead = p.dead ∧
    (movedPlayer fpow lv keys dt p).respawnTimer = p.respawnTimer ∧
    (movedPlayer fpow lv keys dt p).lives = p.lives := by
  unfold movedPlayer
  obtain ⟨-, -, pw, ph, pi, pd, pr, pl⟩ := physPlayer_pres fpow keys dt p
  obtain ⟨-, -, xw, xh, -, -, -, xi, xd, xr, xl⟩ :=
    tryPlayerMoveX_pres lv (physPlayer fpow keys dt p) dt
  obtain ⟨-, -, yw, yh, -, yi, yd, yr, yl⟩ :=
    tryPlayerMoveY_pres lv (tryPlayerMoveX lv (physPlayer fpow keys dt p) dt) dt
  obtain ⟨-, -, -, -, aw, ah, -, -, -, ai, ad, ar, al⟩ :=
    animStep_pres dt (tryPlayerMoveY lv (tryPlayerMoveX lv (physPlayer fpow keys dt p) dt) dt)
  exact ⟨by rw [aw, yw, xw, pw], by rw [ah, yh, xh, ph], by rw [ai, yi, xi, pi],
         by rw [ad, yd, xd, pd], by rw [ar, yr, xr, pr], by rw [al, yl, xl, pl]⟩

/-- Section 3 never moves or resizes the player and never touches its coyote
timer, animation fields or direction. -/
theorem enemyCollide_pos (l : ℚ) (es : List Enemy) : ∀ p : Player,
    (enemyCollide l p es).player.x = p.x ∧ (enemyCollide l p es).player.y = p.y ∧
    (enemyCollide l p es).player.w = p.w ∧ (enemyCollide l p es).player.h = p.h ∧
    (enemyCollide l p es).player.coyote = p.coyote := by
  induction es with
  | nil => intro p; exact ⟨rfl, rfl, rfl, rfl, rfl⟩
  | cons e rest ih =>
    intro p
    simp only [enemyCollide]
    repeat' split
    · exact ih p
    · exact ih { p with dy := -PHYS.jumpVel * (7/10), grounded := false }
    · exact ⟨rfl, rfl, rfl, rfl, rfl⟩
    · exact ih p
    · exact ih p

/-- If the side-hit branch fired, the returned player carries exactly the
side-hit mutation of lives/dead/respawn/invuln. -/
theorem enemyCollide_died_true (l : ℚ) (es : List Enemy) : ∀ p : Player,
    (enemyCollide l p es).playerDied = true →
    (enemyCollide l p es).player.lives = some (l - 1) ∧
    (enemyCollide l p es).player.dead = true ∧
    (enemyCollide l p es).player.invuln = PHYS.invulnMs ∧
    (enemyCollide l p es).player.respawnTimer = 9/10 := by
  induction es with
  | nil => intro p h; exact absurd h (by simp [enemyCollide])
  | cons e rest ih =>
    intro p
    simp only [enemyCollide]
    repeat' split
    · exact ih p
    · exact ih { p with dy := -PHYS.jumpVel * (7/10), grounded := false }
    · intro _; exact ⟨rfl, rfl, rfl, rfl⟩
    · exact ih p
    · exact ih p

/-- If no side hit fired, lives/dead/invuln/respawn pass through untouched. -/
theorem enemyCollide_died_false (l : ℚ) (es : List Enemy) : ∀ p : Player,
    (enemyCollide l p es).playerDied = false →
    (enemyCollide l p es).player.lives = p.lives ∧
    (enemyCollide l p es).player.dead = p.dead ∧
    (enemyCollide l p es).player.invuln = p.invuln ∧
    (enemyCollide l p es).player.respawnTimer = p.respawnTimer := by
  induction es with
  | nil => intro p _; exact ⟨rfl, rfl, rfl, rfl⟩
  | cons e rest ih =>
    intro p
    simp only [enemyCollide]
    repeat' split
    · exact ih p
    · exact ih { p with dy := -PHYS.jumpVel * (7/10), grounded := false }
    · intro h; exact absurd h (by simp)
    · exact ih p
    · exact ih p

/-- A positive invulnerability timer rules the side-hit branch out. -/
theorem enemyCollide_invuln_pos (l : ℚ) (es : List Enemy) : ∀ p : Player,
    0 < p.invuln → (enemyCollide l p es).playerDied = false := by
  induction es with
  | nil => intro p _; rfl
  | cons e rest ih =>
    intro p hp
    simp only [enemyCollide]
    repeat' split
    · exact ih p hp
    · exact ih { p with dy := -PHYS.jumpVel * (7/10), grounded := false } hp
    · next _ _ hinv => exact absurd hp (by simpa using hinv)
    · exact ih p hp
    · exact ih p hp

/-- With no side hit and no stomp the whole pass is the identity. -/
theorem enemyCollide_untouched (l : ℚ) (es : List Enemy) : ∀ p : Player,
    (enemyCollide l p es).playerDied = false → (enemyCollide l p es).stomps = 0 →
    (enemyCollide l p es).player = p ∧ (enemyCollide l p es).enemies = es := by
  induction es with
  | nil => intro p _ _; exact ⟨rfl, rfl⟩
  | cons e rest ih =>
    intro p
    simp only [enemyCollide]
    repeat' split
    · intro h1 h2
      obtain ⟨hp, he⟩ := ih p h1 h2
      exact ⟨hp, by rw [he]⟩
    · intro _ h2; exact absurd h2 (by simp)
    · intro h1 _; exact absurd h1 (by simp)
    · intro h1 h2
      obtain ⟨hp, he⟩ := ih p h1 h2
      exact ⟨hp, by rw [he]⟩
    · intro h1 h2
      obtain ⟨hp, he⟩ := ih p h1 h2
      exact ⟨hp, by rw [he]⟩

/-- The pass changes lives to `some (st.lives - 1)` or not at all. -/
theorem enemyCollide_lives_or (l : ℚ) (p : Player) (es : List Enemy) :
    (enemyCollide l p es).player.lives = p.lives ∨
    (enemyCollide l p es).player.lives = some (l - 1) := by
  cases h : (enemyCollide l p es).playerDied with
  | false => exact Or.inl (enemyCollide_died_false l es p h).1
  | true => exact Or.inr (enemyCollide_died_true l es p h).1

theorem deathRespawn_pres (lv : Level) (dt : ℚ) (p : Player) :
    (deathRespawn lv dt p).w = p.w ∧ (deathRespawn lv dt p).h = p.h ∧
    (deathRespawn lv dt p).coyote = p.coyote ∧
    (deathRespawn lv dt p).lives = p.lives := by
  simp only [deathRespawn]
  repeat' split
  all_goals exact ⟨rfl, rfl, rfl, rfl⟩

/-- A dead player whose respawn countdown is still positive after this tick's
decrement stays dead with invulnerability held at its full value. -/
theorem deathRespawn_still_dead (lv : Level) (dt : ℚ) (p : Player)
    (hd : p.dead = true) (ht : 0 < p.respawnTimer - dt) :
    (deathRespawn lv dt p).dead = true ∧
    (deathRespawn lv dt p).invuln = PHYS.invulnMs ∧
    (deathRespawn lv dt p).respawnTimer = p.respawnTimer - dt := by
  simp only [deathRespawn, hd, if_true]
  rw [if_neg (by simpa using not_le.mpr ht)]
  exact ⟨rfl, rfl, rfl⟩

/-- A dead player whose respawn countdown reaches (or passes) zero is
teleported to the spawn with exactly position/velocity/direction/grounded/
dead/invuln reset; everything else passes through. -/
theorem deathRespawn_respawns (lv : Level) (dt : ℚ) (p : Player)
    (hd : p.dead = true) (ht : p.respawnTimer - dt ≤ 0) :
    (deathRespawn lv dt p).x = 24 ∧ (deathRespawn lv dt p).y = 96 ∧
    (deathRespawn lv dt p).dx = 0 ∧ (deathRespawn lv dt p).dy = 0 ∧
    (deathRespawn lv dt p).dir = 1 ∧ (deathRespawn lv dt p).grounded = false ∧
    (deathRespawn lv dt p).dead = false ∧
    (deathRespawn lv dt p).invuln = PHYS.invulnMs ∧
    (deathRespawn lv dt p).lives = p.lives := by
  simp only [deathRespawn, hd, if_true]
  rw [if_pos (by simpa using ht)]
  refine ⟨?_, ?_, rfl, rfl, rfl, rfl, rfl, rfl, rfl⟩
  · show (tile2px (findSpawns lv).player.1 (findSpawns lv).player.2).1 = 24
    norm_num [findSpawns, tile2px, TILE_SIZE]
  · show (tile2px (findSpawns lv).player.1 (findSpawns lv).player.2).2 - TILE_SIZE = 96
    norm_num [findSpawns, tile2px, TILE_SIZE]

theorem clampWorld_pres (lv : Level) (p : Player) :
    (clampWorld lv p).dead = p.dead ∧ (clampWorld lv p).invuln = p.invuln ∧
    (clampWorld lv p).coyote = p.coyote ∧ (clampWorld lv p).lives = p.lives ∧
    (clampWorld lv p).respawnTimer = p.respawnTimer ∧
    (clampWorld lv p).dx = p.dx ∧ (clampWorld lv p).dy = p.dy ∧
    (clampWorld lv p).dir = p.dir ∧ (clampWorld lv p).grounded = p.grounded := by
  exact ⟨rfl, rfl, rfl, rfl, rfl, rfl, rfl, rfl, rfl⟩

/-! ## `stepGame` field equations -/

theorem stepGame_player (fpow : ℚ → ℚ → ℚ) (prev : GameState) (keys : Keys) (dt : ℚ) :
    (stepGame fpow prev keys dt).player =
      clampWorld prev.level (deathRespawn prev.level dt (enemyPhase fpow prev keys dt).player) := rfl

theorem stepGame_enemies (fpow : ℚ → ℚ → ℚ) (prev : GameState) (keys : Keys) (dt : ℚ) :
    (stepGame fpow prev keys dt).enemies = (enemyPhase fpow prev keys dt).enemies := rfl

theorem stepGame_coins (fpow : ℚ → ℚ → ℚ) (prev : GameState) (keys : Keys) (dt : ℚ) :
    (stepGame fpow prev keys dt).coins = (coinPhase fpow prev keys dt).coins := rfl

theorem stepGame_collected (fpow : ℚ → ℚ → ℚ) (prev : GameState) (keys : Keys) (dt : ℚ) :
    (stepGame fpow prev keys dt).collectedCoins =
      prev.collectedCoins ++ (coinPhase fpow prev keys dt).idxs := rfl

theorem stepGame_score (fpow : ℚ → ℚ → ℚ) (prev : GameState) (keys : Keys) (dt : ℚ) :
    (stepGame fpow prev keys dt).score =
      prev.score + ((coinPhase fpow prev keys dt).scoreInc +
        (if flagHit fpow prev keys dt then (100 : ℚ) else 0)) +
        ((enemyPhase fpow prev keys dt).stomps : ℚ) * 50 := rfl

theorem stepGame_win (fpow : ℚ → ℚ → ℚ) (prev : GameState) (keys : Keys) (dt : ℚ) :
    (stepGame fpow prev keys dt).win = flagHit fpow prev keys dt := rfl

theorem stepGame_timer (fpow : ℚ → ℚ → ℚ) (prev : GameState) (keys : Keys) (dt : ℚ) :
    (stepGame fpow prev keys dt).timer = prev.timer + dt := rfl

/-- The returned `lives` is `movedY.lives ?? st.lives`, and only section 3
ever writes the player's `lives` property. -/
theorem stepGame_lives (fpow : ℚ → ℚ → ℚ) (prev : GameState) (keys : Keys) (dt : ℚ) :
    (stepGame fpow prev keys dt).lives =
      ((enemyPhase fpow prev keys dt).player.lives).getD prev.lives := by
  show (clampWorld prev.level
      (deathRespawn prev.level dt (enemyPhase fpow prev keys dt).player)).lives.getD prev.lives = _
  rw [(clampWorld_pres _ _).2.2.2.1,
      (deathRespawn_pres _ _ _).2.2.2]

/-! ## Coin-pass characterisation -/

theorem coinPass_length (p : Player) (cs : List Coin) : ∀ k : ℕ,
    (coinPass p cs k).coins.length = cs.length := by
  induction cs with
  | nil => intro k; rfl
  | cons c rest ih =>
    intro k
    simp only [coinPass]
    split <;> simp [ih (k + 1)]

theorem coinPass_lb (p : Player) (cs : List Coin) : ∀ k i : ℕ,
    i ∈ (coinPass p cs k).idxs → k ≤ i := by
  induction cs with
  | nil => intro k i h; exact absurd h (by simp [coinPass])
  | cons c rest ih =>
    intro k i
    simp only [coinPass]
    split
    · intro h
      rcases List.mem_cons.mp h with h0 | h1
      · omega
      · have := ih (k + 1) i h1; omega
    · intro h
      have := ih (k + 1) i h; omega

theorem coinPass_pairwise (p : Player) (cs : List Coin) : ∀ k : ℕ,
    (coinPass p cs k).idxs.Pairwise (· < ·) := by
  induction cs with
  | nil => intro k; simp [coinPass]
  | cons c rest ih =>
    intro k
    simp only [coinPass]
    split
    · exact List.pairwise_cons.mpr
        ⟨fun i hi => by have := coinPass_lb p rest (k + 1) i hi; omega, ih (k + 1)⟩
    · exact ih (k + 1)

theorem coinPass_nodup (p : Player) (cs : List Coin) (k : ℕ) :
    (coinPass p cs k).idxs.Nodup :=
  (coinPass_pairwise p cs k).imp Nat.ne_of_lt

theorem coinPass_mem (p : Player) (cs : List Coin) : ∀ k j : ℕ,
    ((k + j) ∈ (coinPass p cs k).idxs ↔
      (j < cs.length ∧ coinPick p (cs.getD j coin0) = true)) := by
  induction cs with
  | nil => intro k j; simp [coinPass]
  | cons c rest ih =>
    intro k j
    simp only [coinPass]
    cases j with
    | zero =>
      split
      · next hpick =>
        simp only [Nat.add_zero, List.getD_cons_zero, List.length_cons]
        exact ⟨fun _ => ⟨Nat.succ_pos _, hpick⟩, fun _ => List.mem_cons_self _ _⟩
      · next hpick =>
        simp only [Nat.add_zero, List.getD_cons_zero, List.length_cons]
        constructor
        · intro h
          have := coinPass_lb p rest (k + 1) k h
          omega
        · intro h
          exact absurd h.2 (by simpa using hpick)
    | succ j =>
      have key : (k + (j + 1)) ∈ (coinPass p rest (k + 1)).idxs ↔
          (j < rest.length ∧ coinPick p (rest.getD j coin0) = true) := by
        have := ih (k + 1) j
        rwa [show k + 1 + j = k + (j + 1) by omega] at this
      split
      · rw [List.mem_cons]
        simp only [List.getD_cons_succ, List.length_cons]
        constructor
        · intro h
          rcases h with h0 | h1
          · omega
          · have := key.mp h1; exact ⟨by omega, this.2⟩
        · intro h
          exact Or.inr (key.mpr ⟨by omega, h.2⟩)
      · simp only [List.getD_cons_succ, List.length_cons]
        constructor
        · intro h
          have := key.mp h; exact ⟨by omega, this.2⟩
        · intro h
          exact key.mpr ⟨by omega, h.2⟩

theorem coinPass_mem_zero (p : Player) (cs : List Coin) (i : ℕ) :
    (i ∈ (coinPass p cs 0).idxs ↔
      (i < cs.length ∧ coinPick p (cs.getD i coin0) = true)) := by
  have := coinPass_mem p cs 0 i
  simpa using this

theorem coinPass_getD (p : Player) (cs : List Coin) : ∀ k j : ℕ, j < cs.length →
    (coinPass p cs k).coins.getD j coin0 =
      (if coinPick p (cs.getD j coin0) then { cs.getD j coin0 with collected := true }
       else cs.getD j coin0) := by
  induction cs with
  | nil => intro k j h; exact absurd h (by simp)
  | cons c rest ih =>
    intro k j hj
    simp only [coinPass]
    cases j with
    | zero => split <;> simp_all
    | succ j =>
      have hj' : j < rest.length := by simpa using hj
      split <;> simpa using ih (k + 1) j hj'

theorem coinPass_score (p : Player) (cs : List Coin) : ∀ k : ℕ,
    (coinPass p cs k).scoreInc = 10 * ((coinPass p cs k).idxs.length : ℚ) := by
  induction cs with
  | nil => intro k; simp [coinPass]
  | cons c rest ih =>
    intro k
    simp only [coinPass]
    split
    · simp only [List.length_cons, ih (k + 1)]
      push_cast
      ring
    · exact ih (k + 1)

/-! ## The claims -/

/-- Claim C1 (code bug): the spec states that platform tiles never block the
player's horizontal movement (only ground and flag are horizontally solid)
and never block upward movement.  In the code, `isSolid` — used by both the
horizontal probe of `tryPlayerMoveX` and the upward probe of
`tryPlayerMoveY` — also returns true for platform tiles (code 2),
contradicting the level data's own documentation ("2 = platform (can fall
through sides)").  Concretely: tile (13, 1) of `level1` is a platform (not
ground, not flag); a player running right into it is snapped to x = 294 with
horizontal velocity zeroed, and a player rising into it from below is
snapped to y = 48 with vertical velocity zeroed. -/
theorem c1_platform_blocks_movement :
    isPlatform (tileRaw level1 1 13) = true ∧
    isGround (tileRaw level1 1 13) = false ∧
    isFlag (tileRaw level1 1 13) = false ∧
    getTile level1 (c1px.x + c1px.dx * (7/100) + c1px.w) (c1px.y + c1px.h / 2) = 2 ∧
    c1px.dx = 180 ∧
    (tryPlayerMoveX level1 c1px (7/100)).dx = 0 ∧
    (tryPlayerMoveX level1 c1px (7/100)).x = 294 ∧
    c1py.dy = -100 ∧
    (tryPlayerMoveY level1 c1py (7/100)).dy = 0 ∧
    (tryPlayerMoveY level1 c1py (7/100)).y = 48 := by
  decide!

/-- Claim C2 counterexample: a single step in which the first enemy is
stomped (tombstoned) *and* the second enemy lands a side hit (lives drop by
one).  The stomp branch of section 3 does not `break`, so the first
qualifying hit does not short-circuit the remaining enemy checks, and two
enemy interactions occur in one step invocation. -/
theorem c2_counterexample_stomp_then_side_hit :
    ((stepGame fpow1 c2state keysNone 0).enemies.getD 0 c2e0).dead = true ∧
    ((stepGame fpow1 c2state keysNone 0).enemies.getD 1 c2e0).dead = false ∧
    (stepGame fpow1 c2state keysNone 0).lives = c2state.lives - 1 ∧
    (stepGame fpow1 c2state keysNone 0).player.dead = true ∧
    c2state.lives = 3 ∧ (stepGame fpow1 c2state keysNone 0).lives = 2 := by
  decide!

/-- Claim C3 counterexample: a step invoked with `lives = 0` whose player
takes a side hit returns `lives = -1`: the step function never floors lives
at zero. -/
theorem c3_counterexample_negative_lives :
    c3state.lives = 0 ∧
    (stepGame fpow1 c3state keysNone 0).lives = -1 ∧
    (stepGame fpow1 c3state keysNone 0).lives < 0 := by
  decide!

/-- Claim C4 counterexample: a step invoked on a state whose `win` flag is
already true, with the player's centre still on the flag tile, increases
`score` by the win bonus again — scoring is not frozen once win is set. -/
theorem c4_counterexample_score_after_win :
    c4state.win = true ∧ c4state.score = 500 ∧
    (stepGame fpow1 c4state keysNone 0).score = 600 ∧
    (stepGame fpow1 c4state keysNone 0).win = true := by
  decide!

/-- Claim C8 counterexample: a step in which the dead player's respawn
completes while the corpse overlaps an uncollected coin.  The coin pass runs
before the respawn block, so the resulting state has a larger `score` and a
longer `collectedCoins` than before the respawn — the claim's "same score,
same collectedCoins" fails as stated. -/
theorem c8_counterexample_coin_during_respawn :
    c8state.player.dead = true ∧ c8state.score = 0 ∧ c8state.collectedCoins = [] ∧
    (stepGame fpow1 c8state keysNone (2/100)).player.dead = false ∧
    (stepGame fpow1 c8state keysNone (2/100)).player.x = 24 ∧
    (stepGame fpow1 c8state keysNone (2/100)).player.y = 96 ∧
    (stepGame fpow1 c8state keysNone (2/100)).score = 10 ∧
    (stepGame fpow1 c8state keysNone (2/100)).collectedCoins = [0] := by
  decide!

/-- Claim C6 counterexample: `useGameLoop` computes
`dt = Math.min((now - prev) / 1000, 0.07)` with no lower clamp, so a host
clock that steps backwards by 70 ms produces an effective `dt` of −0.07,
outside the claimed range `[0, 0.07]`. -/
theorem c6_counterexample_negative_dt :
    computeDt 0 70 = -(7/100) ∧ computeDt 0 70 < 0 := by
  decide!

/-- Claim C7 counterexample: `badLevel` has a row width mismatch (declared
width 3, second row of length 2), yet world-state construction silently
succeeds: `findSpawns` returns its hardcoded spawn `(1, 5)` and
`mkGameStateFor` produces a fully formed state — no load error exists in
the code. -/
theorem c7_counterexample_malformed_level_loads :
    ((badLevel.tiles.getD 1 []).length : ℤ) ≠ badLevel.width ∧
    (findSpawns badLevel).player = (1, 5) ∧
    (mkGameStateFor badLevel).player.x = 24 ∧
    (mkGameStateFor badLevel).player.y = 96 ∧
    (mkGameStateFor badLevel).lives = 3 ∧
    (mkGameStateFor badLevel).score = 0 := by
  decide!

/-! ## Remaining helper lemmas -/

theorem stepEnemy_dead (lv : Level) (dt : ℚ) (e : Enemy) :
    (stepEnemy lv dt e).dead = e.dead := by
  simp only [stepEnemy]
  repeat' split
  all_goals rfl

theorem coinPass_no_pick (p : Player) (cs : List Coin) : ∀ k : ℕ,
    (coinPass p cs k).idxs = [] → (coinPass p cs k).coins = cs := by
  induction cs with
  | nil => intro k _; rfl
  | cons c rest ih =>
    intro k
    simp only [coinPass]
    split
    · intro h; exact absurd h (by simp)
    · intro h; simpa using ih (k + 1) h

theorem tryPlayerMoveY_coyote_full (lv : Level) (p : Player) (dt : ℚ)
    (h : p.coyote = PHYS.coyoteMs) :
    (tryPlayerMoveY lv p dt).coyote = PHYS.coyoteMs := by
  simp only [tryPlayerMoveY]
  repeat' split
  all_goals simp [h]

theorem tryPlayerMoveY_coyote_up (lv : Level) (p : Player) (dt : ℚ)
    (h : p.dy < 0) :
    (tryPlayerMoveY lv p dt).coyote = p.coyote := by
  simp only [tryPlayerMoveY]
  rw [if_neg (not_le.mpr h)]
  split
  all_goals rfl

/-- Section 1 holds an armed coyote timer at its full value whenever no jump
is triggered this tick. -/
theorem physPlayer_coyote_noJump (fpow : ℚ → ℚ → ℚ) (keys : Keys) (dt : ℚ) (p : Player)
    (hc : 0 < p.coyote)
    (hj : (keys.arrowUp || keys.space) = false ∨ p.jumping = true) :
    (physPlayer fpow keys dt p).coyote = PHYS.coyoteMs := by
  have hcd : decide (p.coyote > 0) = true := decide_eq_true hc
  rcases hj with hj | hj
  · simp [physPlayer, hj, hcd]
  · simp [physPlayer, hj, hcd]

/-- Section 1 consumes the coyote timer (and launches) when an airborne
player with an armed timer triggers a jump. -/
theorem physPlayer_coyote_jump (fpow : ℚ → ℚ → ℚ) (keys : Keys) (dt : ℚ) (p : Player)
    (hc : 0 < p.coyote)
    (hup : (keys.arrowUp || keys.space) = true) (hj : p.jumping = false) :
    (physPlayer fpow keys dt p).coyote = 0 ∧
    (physPlayer fpow keys dt p).dy = -PHYS.jumpVel := by
  have hcd : decide (p.coyote > 0) = true := decide_eq_true hc
  have h100 : decide (PHYS.coyoteMs > (0 : ℚ)) = true := by
    rw [decide_eq_true_iff]
    norm_num [PHYS.coyoteMs]
  constructor
  · simp [physPlayer, hup, hj, hcd, h100]
  · simp [physPlayer, hup, hj, hcd, h100]

/-- Claim C2 (amended): enemies are checked in collection order; a side hit
short-circuits all remaining enemy checks for the tick — the first side hit
returns the player with exactly one life subtracted and the remaining
enemies unchanged, and over any enemy list the pass changes lives by at most
that one subtraction.  (A stomp, by contrast, does not short-circuit: see
the counterexample, where a stomp and a side hit land in the same step.) -/
theorem c2_amended_side_hit_short_circuits (p : Player) (l : ℚ) (e : Enemy)
    (rest es : List Enemy)
    (h1 : e.dead = false)
    (h2 : rectsCollide (getPlayerRect p) (getEntityRect e) = true)
    (h3 : stompCheck p e = false)
    (h4 : p.invuln ≤ 0) :
    ((enemyCollide l p es).player.lives = p.lives ∨
     (enemyCollide l p es).player.lives = some (l - 1)) ∧
    enemyCollide l p (e :: rest) = ⟨sideHitPlayer l p, e :: rest, 0, true⟩ := by
  refine ⟨enemyCollide_lives_or l p es, ?_⟩
  simp only [enemyCollide]
  rw [if_neg (by simp [h1]), if_pos h2, if_neg (by simp [h3]), if_pos h4]
  rfl

/-- Witness for the amended C2 at a concrete side hit with one more enemy
waiting behind the hit one. -/
theorem c2_amended_witness :
    ((enemyCollide 3 basePlayer [c2e0]).player.lives = basePlayer.lives ∨
     (enemyCollide 3 basePlayer [c2e0]).player.lives = some (3 - 1)) ∧
    enemyCollide 3 basePlayer (c2e1 :: [c2e0]) =
      ⟨sideHitPlayer 3 basePlayer, c2e1 :: [c2e0], 0, true⟩ :=
  c2_amended_side_hit_short_circuits basePlayer 3 c2e1 [c2e0] [c2e0]
    (by decide!) (by decide!) (by decide!) (by decide!)

/-- Claim C3 (amended): per step, `lives` never increases and drops by at
most one — on the invariant that the player's cached `lives` property (if
present) agrees with the state's `lives`, which holds of the initial state
and is preserved by every step (third conjunct).  Nonnegativity is NOT
enforced by the step itself: a side hit taken at `lives = 0` yields `-1`
(see the counterexample), so `lives ≥ 0` after a step only when
`lives ≥ 1` before it or no side hit lands. -/
theorem c3_amended_lives_monotone (fpow : ℚ → ℚ → ℚ) (prev : GameState) (keys : Keys)
    (dt : ℚ)
    (hinv : prev.player.lives = none ∨ prev.player.lives = some prev.lives) :
    (stepGame fpow prev keys dt).lives ≤ prev.lives ∧
    prev.lives - 1 ≤ (stepGame fpow prev keys dt).lives ∧
    ((stepGame fpow prev keys dt).player.lives = none ∨
     (stepGame fpow prev keys dt).player.lives = some (stepGame fpow prev keys dt).lives) := by
  have hmv : (movedPlayer fpow prev.level keys dt prev.player).lives = prev.player.lives :=
    (movedPlayer_pres fpow prev.level keys dt prev.player).2.2.2.2.2
  have hpl : (stepGame fpow prev keys dt).player.lives =
      (enemyPhase fpow prev keys dt).player.lives := by
    rw [stepGame_player, (clampWorld_pres _ _).2.2.2.1, (deathRespawn_pres _ _ _).2.2.2]
  have hor := enemyCollide_lives_or prev.lives
    (movedPlayer fpow prev.level keys dt prev.player)
    (prev.enemies.map (stepEnemy prev.level dt))
  have hep : (enemyPhase fpow prev keys dt).player.lives =
      (movedPlayer fpow prev.level keys dt prev.player).lives ∨
      (enemyPhase fpow prev keys dt).player.lives = some (prev.lives - 1) := hor
  rw [stepGame_lives, hpl]
  rcases hep with h | h
  · rcases hinv with h0 | h0
    · rw [h, hmv, h0]
      simp only [Option.getD_none]
      exact ⟨le_refl _, by linarith, Or.inl trivial⟩
    · rw [h, hmv, h0]
      simp only [Option.getD_some]
      exact ⟨le_refl _, by linarith, Or.inr trivial⟩
  · rw [h]
    simp only [Option.getD_some]
    exact ⟨by linarith, le_refl _, Or.inr trivial⟩

/-- Witness for the amended C3 on the base session (no cached lives). -/
theorem c3_amended_witness :
    (stepGame fpow1 baseState keysNone 0).lives ≤ baseState.lives ∧
    baseState.lives - 1 ≤ (stepGame fpow1 baseState keysNone 0).lives ∧
    ((stepGame fpow1 baseState keysNone 0).player.lives = none ∨
     (stepGame fpow1 baseState keysNone 0).player.lives =
       some (stepGame fpow1 baseState keysNone 0).lives) :=
  c3_amended_lives_monotone fpow1 baseState keysNone 0 (Or.inl rfl)

/-- Claim C4 (amended): each step recomputes `win` from scratch as "the
player's centre tile is the flag tile" and, whenever that test holds, adds
the 100-point win bonus to the score — the step function neither latches
`win` nor freezes scoring after a win (see the counterexample); stopping the
session once `win` is observed is the caller's job. -/
theorem c4_amended_win_recomputed (fpow : ℚ → ℚ → ℚ) (prev : GameState) (keys : Keys)
    (dt : ℚ) :
    (stepGame fpow prev keys dt).win = flagHit fpow prev keys dt ∧
    (stepGame fpow prev keys dt).score =
      prev.score + (coinPhase fpow prev keys dt).scoreInc +
        ((enemyPhase fpow prev keys dt).stomps : ℚ) * 50 +
        (if flagHit fpow prev keys dt then (100 : ℚ) else 0) := by
  refine ⟨rfl, ?_⟩
  rw [stepGame_score]
  ring

/-- Claim C6 (amended): the loop's delta is clamped from above only —
`computeDt` never exceeds 70 ms, but has no lower bound (the counterexample
shows a negative delta passing through), and `stepGame` consumes whatever
`dt` it is handed without further clamping, as witnessed by the timer
accumulation. -/
theorem c6_amended_upper_clamp_only (now prevT : ℚ) (fpow : ℚ → ℚ → ℚ)
    (st : GameState) (keys : Keys) (dt : ℚ) :
    computeDt now prevT ≤ 7/100 ∧
    (stepGame fpow st keys dt).timer = st.timer + dt :=
  ⟨min_le_right _ _, rfl⟩

/-- Claim C7 (amended): world-state construction is total and never
surfaces a load error — for every level, malformed or not, `findSpawns`
returns the hardcoded spawn tile (1, 5) and `mkGameStateFor` yields a fully
initialised state (player at pixel (24, 96), score 0, full lives, no win);
row widths are never validated. -/
theorem c7_amended_construction_total (lv : Level) :
    (findSpawns lv).player = (1, 5) ∧
    (mkGameStateFor lv).player.x = 24 ∧
    (mkGameStateFor lv).player.y = 96 ∧
    (mkGameStateFor lv).score = 0 ∧
    (mkGameStateFor lv).lives = initialLives ∧
    (mkGameStateFor lv).win = false := by
  refine ⟨rfl, ?_, ?_, rfl, rfl, rfl⟩
  · show (tile2px (1 : ℤ) (5 : ℤ)).1 = 24
    norm_num [tile2px, TILE_SIZE]
  · show (tile2px (1 : ℤ) (5 : ℤ)).2 - TILE_SIZE = 96
    norm_num [tile2px, TILE_SIZE]

/-- Claim C5: in the player-vs-enemy pass of a step, a stomp never
decrements lives (whenever the side-hit branch did not fire, the returned
lives equal the previous lives — stomps included); a side hit while the
invulnerability timer is not positive decrements lives by exactly 1, leaves
the player marked dead in the returned state, and arms the invulnerability
timer to its full value; and while the invulnerability timer is positive the
side-hit branch can never fire, so no overlap costs a life.  Stated under
the reachability invariant that the player's cached `lives` property (if
present) agrees with the state's, and for `dt` within the loop's 70 ms
bound (so the fresh 0.9 s respawn countdown cannot elapse this same tick). -/
theorem c5_stomp_side_hit_invuln (fpow : ℚ → ℚ → ℚ) (prev : GameState) (keys : Keys)
    (dt : ℚ)
    (hdt : dt ≤ 7/100)
    (hinv : prev.player.lives = none ∨ prev.player.lives = some prev.lives) :
    ((0 : ℚ) < prev.player.invuln → (enemyPhase fpow prev keys dt).playerDied = false) ∧
    ((enemyPhase fpow prev keys dt).playerDied = false →
      (stepGame fpow prev keys dt).lives = prev.lives) ∧
    ((enemyPhase fpow prev keys dt).playerDied = true →
      (stepGame fpow prev keys dt).lives = prev.lives - 1 ∧
      (stepGame fpow prev keys dt).player.dead = true ∧
      (stepGame fpow prev keys dt).player.invuln = PHYS.invulnMs) := by
  have hpres := movedPlayer_pres fpow prev.level keys dt prev.player
  have heq : enemyPhase fpow prev keys dt =
      enemyCollide prev.lives (movedPlayer fpow prev.level keys dt prev.player)
        (prev.enemies.map (stepEnemy prev.level dt)) := rfl
  refine ⟨?_, ?_, ?_⟩
  · intro h
    rw [heq]
    exact enemyCollide_invuln_pos prev.lives _ _ (by rw [hpres.2.2.1]; exact h)
  · intro h
    rw [stepGame_lives]
    have hl := (enemyCollide_died_false prev.lives _ _ (by rw [← heq]; exact h)).1
    rw [heq, hl, hpres.2.2.2.2.2]
    rcases hinv with h0 | h0 <;> rw [h0] <;> simp
  · intro h
    have hd := enemyCollide_died_true prev.lives
      (prev.enemies.map (stepEnemy prev.level dt))
      (movedPlayer fpow prev.level keys dt prev.player) (by rw [← heq]; exact h)
    have hdead : (deathRespawn prev.level dt (enemyPhase fpow prev keys dt).player).dead = true ∧
        (deathRespawn prev.level dt (enemyPhase fpow prev keys dt).player).invuln = PHYS.invulnMs ∧
        (deathRespawn prev.level dt (enemyPhase fpow prev keys dt).player).respawnTimer =
          (enemyPhase fpow prev keys dt).player.respawnTimer - dt := by
      apply deathRespawn_still_dead
      · rw [heq]; exact hd.2.1
      · rw [heq, hd.2.2.2]; linarith
    refine ⟨?_, ?_, ?_⟩
    · rw [stepGame_lives, heq, hd.1]; simp
    · rw [stepGame_player, (clampWorld_pres _ _).1, hdead.1]
    · rw [stepGame_player, (clampWorld_pres _ _).2.1, hdead.2.1]

/-- Witness for C5 at the concrete stomp-then-side-hit state: both the
side-hit branch firing and the resulting exact life loss are exercised. -/
theorem c5_witness :
    (((0 : ℚ) < c2state.player.invuln →
       (enemyPhase fpow1 c2state keysNone 0).playerDied = false) ∧
     ((enemyPhase fpow1 c2state keysNone 0).playerDied = false →
       (stepGame fpow1 c2state keysNone 0).lives = c2state.lives) ∧
     ((enemyPhase fpow1 c2state keysNone 0).playerDied = true →
       (stepGame fpow1 c2state keysNone 0).lives = c2state.lives - 1 ∧
       (stepGame fpow1 c2state keysNone 0).player.dead = true ∧
       (stepGame fpow1 c2state keysNone 0).player.invuln = PHYS.invulnMs)) ∧
    (enemyPhase fpow1 c2state keysNone 0).playerDied = true :=
  ⟨c5_stomp_side_hit_invuln fpow1 c2state keysNone 0 (by decide!) (Or.inl rfl),
   by decide!⟩

/-- Claim C8 (amended): the respawn itself resets only the player's
position, velocity, direction, grounded, dead and invulnerability fields
(invulnerability re-armed to its full value) and preserves `score`,
`collectedCoins`, the coin list, every enemy's dead flag and `lives`.
Because the coin, enemy and flag passes of the same tick run before the
respawn block, the preservation of score/collectedCoins/enemies holds for
the step as a whole only when no pickup, stomp, side hit or flag touch
lands that tick (the counterexample shows a same-tick coin pickup changing
the score).  Stated for the game's player box (18 × 22) on `level1`, where
the spawn point survives the final world clamp unchanged. -/
theorem c8_amended_respawn_preserves (fpow : ℚ → ℚ → ℚ) (prev : GameState) (keys : Keys)
    (dt : ℚ)
    (hlv : prev.level = level1)
    (hw : prev.player.w = 18) (hh : prev.player.h = 22)
    (hdead : prev.player.dead = true)
    (ht : prev.player.respawnTimer - dt ≤ 0)
    (hinv : prev.player.lives = none ∨ prev.player.lives = some prev.lives)
    (hnohit : (enemyPhase fpow prev keys dt).playerDied = false)
    (hnostomp : (enemyPhase fpow prev keys dt).stomps = 0)
    (hnocoin : (coinPhase fpow prev keys dt).idxs = [])
    (hnoflag : flagHit fpow prev keys dt = false) :
    (stepGame fpow prev keys dt).score = prev.score ∧
    (stepGame fpow prev keys dt).collectedCoins = prev.collectedCoins ∧
    (stepGame fpow prev keys dt).coins = prev.coins ∧
    (stepGame fpow prev keys dt).enemies.map Enemy.dead = prev.enemies.map Enemy.dead ∧
    (stepGame fpow prev keys dt).lives = prev.lives ∧
    (stepGame fpow prev keys dt).player.x = 24 ∧
    (stepGame fpow prev keys dt).player.y = 96 ∧
    (stepGame fpow prev keys dt).player.dx = 0 ∧
    (stepGame fpow prev keys dt).player.dy = 0 ∧
    (stepGame fpow prev keys dt).player.dir = 1 ∧
    (stepGame fpow prev keys dt).player.grounded = false ∧
    (stepGame fpow prev keys dt).player.dead = false ∧
    (stepGame fpow prev keys dt).player.invuln = PHYS.invulnMs := by
  have hpres := movedPlayer_pres fpow prev.level keys dt prev.player
  have heq : enemyPhase fpow prev keys dt =
      enemyCollide prev.lives (movedPlayer fpow prev.level keys dt prev.player)
        (prev.enemies.map (stepEnemy prev.level dt)) := rfl
  have huntouched := enemyCollide_untouched prev.lives
    (prev.enemies.map (stepEnemy prev.level dt))
    (movedPlayer fpow prev.level keys dt prev.player)
    (by rw [← heq]; exact hnohit) (by rw [← heq]; exact hnostomp)
  have hplayer : (enemyPhase fpow prev keys dt).player =
      movedPlayer fpow prev.level keys dt prev.player := by rw [heq]; exact huntouched.1
  have hre := deathRespawn_respawns prev.level dt (enemyPhase fpow prev keys dt).player
    (by rw [hplayer, hpres.2.2.2.1]; exact hdead)
    (by rw [hplayer, hpres.2.2.2.2.1]; exact ht)
  have hrw : (deathRespawn prev.level dt (enemyPhase fpow prev keys dt).player).w =
      prev.player.w := by
    rw [(deathRespawn_pres _ _ _).1, hplayer, hpres.1]
  have hrh : (deathRespawn prev.level dt (enemyPhase fpow prev keys dt).player).h =
      prev.player.h := by
    rw [(deathRespawn_pres _ _ _).2.1, hplayer, hpres.2.1]
  refine ⟨?_, ?_, ?_, ?_, ?_, ?_, ?_, ?_, ?_, ?_, ?_, ?_, ?_⟩
  · rw [stepGame_score, hnoflag]
    have hs : (coinPhase fpow prev keys dt).scoreInc = 0 := by
      rw [show coinPhase fpow prev keys dt =
            coinPass (enemyPhase fpow prev keys dt).player prev.coins 0 from rfl] at hnocoin ⊢
      rw [coinPass_score, hnocoin]
      simp
    rw [hs, hnostomp]
    simp
  · rw [stepGame_collected, hnocoin, List.append_nil]
  · rw [stepGame_coins]
    exact coinPass_no_pick (enemyPhase fpow prev keys dt).player prev.coins 0 hnocoin
  · rw [stepGame_enemies, heq, huntouched.2, List.map_map]
    exact List.map_congr_left fun e _ => stepEnemy_dead prev.level dt e
  · rw [stepGame_lives, hplayer, hpres.2.2.2.2.2]
    rcases hinv with h0 | h0 <;> rw [h0] <;> simp
  · show (clampWorld prev.level (deathRespawn prev.level dt
      (enemyPhase fpow prev keys dt).player)).x = 24
    show clamp (deathRespawn prev.level dt (enemyPhase fpow prev keys dt).player).x 0
      ((prev.level.width : ℚ) * TILE_SIZE -
        (deathRespawn prev.level dt (enemyPhase fpow prev keys dt).player).w) = 24
    rw [hre.1, hrw, hw, hlv]
    norm_num [clamp, level1, TILE_SIZE]
  · show (clampWorld prev.level (deathRespawn prev.level dt
      (enemyPhase fpow prev keys dt).player)).y = 96
    show clamp (deathRespawn prev.level dt (enemyPhase fpow prev keys dt).player).y 0
      (((prev.level.height : ℚ) - 1) * TILE_SIZE -
        (deathRespawn prev.level dt (enemyPhase fpow prev keys dt).player).h) = 96
    rw [hre.2.1, hrh, hh, hlv]
    norm_num [clamp, level1, TILE_SIZE]
  · rw [stepGame_player, (clampWorld_pres _ _).2.2.2.2.2.1, hre.2.2.1]
  · rw [stepGame_player, (clampWorld_pres _ _).2.2.2.2.2.2.1, hre.2.2.2.1]
  · rw [stepGame_player, (clampWorld_pres _ _).2.2.2.2.2.2.2.1, hre.2.2.2.2.1]
  · rw [stepGame_player, (clampWorld_pres _ _).2.2.2.2.2.2.2.2, hre.2.2.2.2.2.1]
  · rw [stepGame_player, (clampWorld_pres _ _).1, hre.2.2.2.2.2.2.1]
  · rw [stepGame_player, (clampWorld_pres _ _).2.1, hre.2.2.2.2.2.2.2.1]

/-- Witness for the amended C8: the respawn-completing step of a session
with no coins, no enemies and no flag touch. -/
theorem c8_amended_witness :
    (stepGame fpow1 c8bstate keysNone (2/100)).score = c8bstate.score ∧
    (stepGame fpow1 c8bstate keysNone (2/100)).collectedCoins = c8bstate.collectedCoins ∧
    (stepGame fpow1 c8bstate keysNone (2/100)).coins = c8bstate.coins ∧
    (stepGame fpow1 c8bstate keysNone (2/100)).enemies.map Enemy.dead =
      c8bstate.enemies.map Enemy.dead ∧
    (stepGame fpow1 c8bstate keysNone (2/100)).lives = c8bstate.lives ∧
    (stepGame fpow1 c8bstate keysNone (2/100)).player.x = 24 ∧
    (stepGame fpow1 c8bstate keysNone (2/100)).player.y = 96 ∧
    (stepGame fpow1 c8bstate keysNone (2/100)).player.dx = 0 ∧
    (stepGame fpow1 c8bstate keysNone (2/100)).player.dy = 0 ∧
    (stepGame fpow1 c8bstate keysNone (2/100)).player.dir = 1 ∧
    (stepGame fpow1 c8bstate keysNone (2/100)).player.grounded = false ∧
    (stepGame fpow1 c8bstate keysNone (2/100)).player.dead = false ∧
    (stepGame fpow1 c8bstate keysNone (2/100)).player.invuln = PHYS.invulnMs :=
  c8_amended_respawn_preserves fpow1 c8bstate keysNone (2/100) rfl rfl rfl rfl
    (by decide!) (Or.inl rfl) (by decide!) (by decide!) (by decide!) (by decide!)

/-- Claim C9: coin pickup is idempotent.  In every step, a coin whose
collected flag is already true is returned unchanged and its index is not
appended again — so, whenever the incoming `collectedCoins` is duplicate-free
and only lists indices of already-collected coins (as in every reachable
state), the outgoing `collectedCoins` is still duplicate-free (each index at
most once).  Every uncollected coin overlapping the post-move player is
tombstoned and its index appended, the awarded increment being exactly 10
per collected coin; several coins may be collected in one tick (the witness
collects two). -/
theorem c9_coin_idempotent (fpow : ℚ → ℚ → ℚ) (prev : GameState) (keys : Keys) (dt : ℚ)
    (hnd : prev.collectedCoins.Nodup)
    (hcc : ∀ i ∈ prev.collectedCoins,
      i < prev.coins.length ∧ (prev.coins.getD i coin0).collected = true) :
    ((stepGame fpow prev keys dt).coins = (coinPhase fpow prev keys dt).coins ∧
     (stepGame fpow prev keys dt).collectedCoins =
       prev.collectedCoins ++ (coinPhase fpow prev keys dt).idxs) ∧
    (∀ i, i < prev.coins.length → (prev.coins.getD i coin0).collected = true →
      (coinPhase fpow prev keys dt).coins.getD i coin0 = prev.coins.getD i coin0 ∧
      i ∉ (coinPhase fpow prev keys dt).idxs) ∧
    (∀ i, i < prev.coins.length → (prev.coins.getD i coin0).collected = false →
      circleBoxCollide (prev.coins.getD i coin0).x (prev.coins.getD i coin0).y
        (prev.coins.getD i coin0).r
        (getPlayerRect (enemyPhase fpow prev keys dt).player) = true →
      ((coinPhase fpow prev keys dt).coins.getD i coin0).collected = true ∧
      i ∈ (coinPhase fpow prev keys dt).idxs) ∧
    (coinPhase fpow prev keys dt).scoreInc =
      10 * ((coinPhase fpow prev keys dt).idxs.length : ℚ) ∧
    (stepGame fpow prev keys dt).collectedCoins.Nodup := by
  have hrfl : coinPhase fpow prev keys dt =
      coinPass (enemyPhase fpow prev keys dt).player prev.coins 0 := rfl
  refine ⟨⟨rfl, rfl⟩, ?_, ?_, ?_, ?_⟩
  · intro i hi hcol
    constructor
    · rw [hrfl, coinPass_getD _ prev.coins 0 i hi]
      have hp : coinPick (enemyPhase fpow prev keys dt).player (prev.coins.getD i coin0)
          = false := by
        simp only [coinPick, hcol, Bool.not_true, Bool.false_and]
      rw [hp]
      simp
    · intro hmem
      rw [hrfl] at hmem
      have hm := (coinPass_mem_zero _ prev.coins i).mp hmem
      have hm2 := hm.2
      simp only [coinPick, Bool.and_eq_true, Bool.not_eq_true'] at hm2
      rw [hcol] at hm2
      exact absurd hm2.1 (by simp)
  · intro i hi hcol hcb
    have hp : coinPick (enemyPhase fpow prev keys dt).player (prev.coins.getD i coin0)
        = true := by
      simp only [coinPick, hcol, Bool.not_false, Bool.true_and]
      exact hcb
    constructor
    · rw [hrfl, coinPass_getD _ prev.coins 0 i hi, hp]
      simp
    · rw [hrfl]
      exact (coinPass_mem_zero _ prev.coins i).mpr ⟨hi, hp⟩
  · rw [hrfl]
    exact coinPass_score _ prev.coins 0
  · rw [stepGame_collected]
    refine List.Nodup.append hnd (by rw [hrfl]; exact coinPass_nodup _ prev.coins 0) ?_
    intro a ha hb
    rw [hrfl] at hb
    have hm := (coinPass_mem_zero _ prev.coins a).mp hb
    have hc := hcc a ha
    have hm2 := hm.2
    simp only [coinPick, Bool.and_eq_true, Bool.not_eq_true'] at hm2
    rw [hc.2] at hm2
    exact absurd hm2.1 (by simp)

/-- Witness for C9: two uncollected coins collected in the same tick, the
already-collected one untouched, and the resulting index list still
duplicate-free. -/
theorem c9_witness :
    (coinPhase fpow1 c9state keysNone 0).idxs = [0, 1] ∧
    (((stepGame fpow1 c9state keysNone 0).coins = (coinPhase fpow1 c9state keysNone 0).coins ∧
      (stepGame fpow1 c9state keysNone 0).collectedCoins =
        c9state.collectedCoins ++ (coinPhase fpow1 c9state keysNone 0).idxs) ∧
     (∀ i, i < c9state.coins.length → (c9state.coins.getD i coin0).collected = true →
       (coinPhase fpow1 c9state keysNone 0).coins.getD i coin0 = c9state.coins.getD i coin0 ∧
       i ∉ (coinPhase fpow1 c9state keysNone 0).idxs) ∧
     (∀ i, i < c9state.coins.length → (c9state.coins.getD i coin0).collected = false →
       circleBoxCollide (c9state.coins.getD i coin0).x (c9state.coins.getD i coin0).y
         (c9state.coins.getD i coin0).r
         (getPlayerRect (enemyPhase fpow1 c9state keysNone 0).player) = true →
       ((coinPhase fpow1 c9state keysNone 0).coins.getD i coin0).collected = true ∧
       i ∈ (coinPhase fpow1 c9state keysNone 0).idxs) ∧
     (coinPhase fpow1 c9state keysNone 0).scoreInc =
       10 * ((coinPhase fpow1 c9state keysNone 0).idxs.length : ℚ) ∧
     (stepGame fpow1 c9state keysNone 0).collectedCoins.Nodup) :=
  ⟨by decide!,
   c9_coin_idempotent fpow1 c9state keysNone 0 (by decide) (by decide!)⟩

/-- Claim C10 (implicit): the armed coyote timer never decays.  For every
step in which the player is airborne with a positive coyote timer: if no
jump is triggered this tick (jump intent absent, or the jump latch still
held), the returned timer is the full `PHYS.coyoteMs` — so after walking off
a ledge without jumping, a jump stays available on every later airborne tick
indefinitely; and when a jump is triggered (intent held, latch clear), the
timer is consumed to exactly zero. -/
theorem c10_coyote_rearmed (fpow : ℚ → ℚ → ℚ) (prev : GameState) (keys : Keys) (dt : ℚ)
    (hg : prev.player.grounded = false)
    (hc : 0 < prev.player.coyote) :
    ((keys.arrowUp || keys.space) = false ∨ prev.player.jumping = true →
      (stepGame fpow prev keys dt).player.coyote = PHYS.coyoteMs) ∧
    ((keys.arrowUp || keys.space) = true → prev.player.jumping = false →
      (stepGame fpow prev keys dt).player.coyote = 0) := by
  have hafter : ∀ q : Player,
      (clampWorld prev.level (deathRespawn prev.level dt q)).coyote = q.coyote := by
    intro q
    rw [(clampWorld_pres _ _).2.2.1, (deathRespawn_pres _ _ _).2.2.1]
  have hstep : (stepGame fpow prev keys dt).player.coyote =
      (movedPlayer fpow prev.level keys dt prev.player).coyote := by
    rw [stepGame_player, hafter]
    show (enemyCollide prev.lives (movedPlayer fpow prev.level keys dt prev.player)
      (prev.enemies.map (stepEnemy prev.level dt))).player.coyote = _
    exact (enemyCollide_pos prev.lives _ _).2.2.2.2
  have hanim : ∀ q : Player, (animStep dt q).coyote = q.coyote :=
    fun q => (animStep_pres dt q).2.2.2.2.2.2.2.2.1
  constructor
  · intro hj
    rw [hstep]
    unfold movedPlayer
    rw [hanim]
    apply tryPlayerMoveY_coyote_full
    rw [(tryPlayerMoveX_pres _ _ _).2.2.2.2.2.2.1]
    exact physPlayer_coyote_noJump fpow keys dt prev.player hc hj
  · intro hup hj
    have hjp := physPlayer_coyote_jump fpow keys dt prev.player hc hup hj
    rw [hstep]
    unfold movedPlayer
    rw [hanim]
    rw [tryPlayerMoveY_coyote_up _ _ _
      (by rw [(tryPlayerMoveX_pres _ _ _).2.1, hjp.2]; norm_num [PHYS.jumpVel])]
    rw [(tryPlayerMoveX_pres _ _ _).2.2.2.2.2.2.1]
    exact hjp.1

/-- Witness for C10: an airborne player with a half-armed timer (50 ms) and
no jump intent ends the step with the timer back at the full 100 ms. -/
theorem c10_witness :
    ((keysNone.arrowUp || keysNone.space) = false ∨ c10state.player.jumping = true →
      (stepGame fpow1 c10state keysNone 0).player.coyote = PHYS.coyoteMs) ∧
    ((keysNone.arrowUp || keysNone.space) = true → c10state.player.jumping = false →
      (stepGame fpow1 c10state keysNone 0).player.coyote = 0) :=
  c10_coyote_rearmed fpow1 c10state keysNone 0 rfl (by decide!)
